import Mathlib

/-!
Verification of the echo-robot vision-guided trajectory planning core.

This file gives a shallow embedding, over the real numbers, of:
- `TrajectoryPlanner` from `trajectory_planner.py` (workspace check,
  strict inverse kinematics, 8-phase push-trajectory synthesis,
  trajectory smoothing, bottle-detection filtering);
- the clamping `inverse_kinematics` from `echo-robot/lerobot_yolo.py`
  (duplicated verbatim in `echo-robot/demo_integrated.py`);
- `CoordinateTransformer.calibrate_workspace` from
  `echo-robot/utils/coordinate_transform.py`.

Python floats are modelled as exact reals.  A Python function that can
raise an uncaught exception (`math.acos` domain error, `ZeroDivisionError`)
is modelled as returning `none` on exactly the raising inputs.  External
collaborators (the YOLO detector, `cv2.findHomography`, the calibrated
pixel-to-world projection) are modelled as function parameters, since the
embedded code only consumes their outputs.
-/

namespace EchoRobot

/-- Two-argument arctangent with the semantics of Python `math.atan2 y x`. -/
noncomputable def atan2 (y x : ℝ) : ℝ :=
  if 0 < x then Real.arctan (y / x)
  else if x < 0 then
    (if 0 ≤ y then Real.arctan (y / x) + Real.pi else Real.arctan (y / x) - Real.pi)
  else
    (if 0 < y then Real.pi / 2 else if y < 0 then -(Real.pi / 2) else 0)

/-- Python `math.degrees`. -/
noncomputable def degrees (r : ℝ) : ℝ := r * 180 / Real.pi

/-- The full 6-joint pose record returned by
`TrajectoryPlanner.inverse_kinematics` (values in degrees). -/
structure JointAngles where
  shoulder_pan : ℝ
  shoulder_lift : ℝ
  elbow_flex : ℝ
  wrist_flex : ℝ
  wrist_roll : ℝ
  gripper : ℝ

instance : Inhabited JointAngles := ⟨⟨0, 0, 0, 0, 0, 0⟩⟩

/-- A world-frame position, the `world_coords` dict `{x, y, z}`. -/
structure WorldCoords where
  x : ℝ
  y : ℝ
  z : ℝ

instance : Inhabited WorldCoords := ⟨⟨0, 0, 0⟩⟩

namespace TrajectoryPlanner

/-- First link length (m), `self.l1` in `TrajectoryPlanner.__init__`. -/
def l1 : ℝ := 0.1159

/-- Second link length (m), `self.l2` in `TrajectoryPlanner.__init__`. -/
def l2 : ℝ := 0.1350

/-- The static workspace safety box, `self.workspace`. -/
structure Workspace where
  x_min : ℝ
  x_max : ℝ
  y_min : ℝ
  y_max : ℝ
  z_min : ℝ
  z_max : ℝ

/-- Value of `self.workspace` in `TrajectoryPlanner.__init__`. -/
def workspace : Workspace :=
  { x_min := 0.10, x_max := 0.25
    y_min := -0.12, y_max := 0.12
    z_min := 0.05, z_max := 0.20 }

/-- Constant `self.push_distance`. -/
def push_distance : ℝ := 0.05

/-- Constant `self.approach_height`. -/
def approach_height : ℝ := 0.12

/-- Constant `self.contact_height`. -/
def contact_height : ℝ := 0.08

/-- Constant `self.safe_height`. -/
def safe_height : ℝ := 0.15

/-- Embedding of `TrajectoryPlanner.is_in_workspace(x, y, z)`. -/
def is_in_workspace (x y z : ℝ) : Prop :=
  workspace.x_min ≤ x ∧ x ≤ workspace.x_max ∧
  workspace.y_min ≤ y ∧ y ≤ workspace.y_max ∧
  workspace.z_min ≤ z ∧ z ≤ workspace.z_max

/-- Embedding of `TrajectoryPlanner.inverse_kinematics(x, y, z=None)`.
The z coordinate is unused by the source.  Out-of-reach targets return
`None`; `cos_q2` is clamped into `[-1, 1]` before `acos`, so no exception
can occur and no other input returns `None`. -/
noncomputable def inverse_kinematics (x y : ℝ) : Option JointAngles :=
  let distance := Real.sqrt (x * x + y * y)
  if distance > l1 + l2 ∨ distance < |l1 - l2| then none
  else
    let cos_q2 := (distance * distance - l1 * l1 - l2 * l2) / (2 * l1 * l2)
    let cos_q2 := max (-1) (min 1 cos_q2)
    let q2 := Real.arccos cos_q2
    let alpha := atan2 y x
    let beta := atan2 (l2 * Real.sin q2) (l1 + l2 * Real.cos q2)
    let q1 := alpha - beta
    some
      { shoulder_pan := degrees (atan2 y x)
        shoulder_lift := degrees q1
        elbow_flex := degrees q2
        wrist_flex := 0.0
        wrist_roll := 0.0
        gripper := 0.0 }

/-- A waypoint as first synthesized by `generate_push_trajectory`,
before IK resolution (the dict without its `joint_angles` key). -/
structure WaypointSpec where
  name : String
  world_coords : WorldCoords
  duration : ℝ

/-- A waypoint after IK resolution (the dict with `joint_angles` added). -/
structure Waypoint where
  name : String
  world_coords : WorldCoords
  duration : ℝ
  joint_angles : JointAngles

instance : Inhabited Waypoint := ⟨⟨"", default, 0, default⟩⟩

/-- The eight waypoints synthesized by `generate_push_trajectory` before the
IK-resolution loop, in source order. -/
noncomputable def mkPushWaypoints (world_x world_y push_angle : ℝ) :
    List WaypointSpec :=
  let push_dir_x := Real.cos push_angle
  let push_dir_y := Real.sin push_angle
  let home_pos : WorldCoords := ⟨0.15, 0.0, safe_height⟩
  let above_bottle : WorldCoords := ⟨world_x, world_y, approach_height⟩
  let approach_pos : WorldCoords :=
    ⟨world_x - push_dir_x * 0.03, world_y - push_dir_y * 0.03, contact_height⟩
  let precontact_pos : WorldCoords :=
    ⟨world_x - push_dir_x * 0.01, world_y - push_dir_y * 0.01, contact_height⟩
  let contact_pos : WorldCoords := ⟨world_x, world_y, contact_height⟩
  let push_pos : WorldCoords :=
    ⟨world_x + push_dir_x * push_distance, world_y + push_dir_y * push_distance,
     contact_height⟩
  let retract_pos : WorldCoords := ⟨push_pos.x, push_pos.y, approach_height⟩
  [⟨"start", home_pos, 2.0⟩,
   ⟨"above_bottle", above_bottle, 2.0⟩,
   ⟨"approach", approach_pos, 1.5⟩,
   ⟨"pre_contact", precontact_pos, 1.0⟩,
   ⟨"contact", contact_pos, 0.5⟩,
   ⟨"push_through", push_pos, 2.0⟩,
   ⟨"retract", retract_pos, 1.5⟩,
   ⟨"return_home", home_pos, 3.0⟩]

/-- One step of the IK-resolution loop body of `generate_push_trajectory`. -/
noncomputable def resolveWaypoint (w : WaypointSpec) : Option Waypoint :=
  match inverse_kinematics w.world_coords.x w.world_coords.y with
  | none => none
  | some ja => some ⟨w.name, w.world_coords, w.duration, ja⟩

/-- The IK-resolution loop of `generate_push_trajectory`: the first waypoint
whose IK comes back `None` makes the whole call return `None`. -/
noncomputable def resolveAll : List WaypointSpec → Option (List Waypoint)
  | [] => some []
  | w :: ws =>
    match resolveWaypoint w with
    | none => none
    | some r =>
      match resolveAll ws with
      | none => none
      | some rs => some (r :: rs)

/-- Embedding of `TrajectoryPlanner.generate_push_trajectory(bottle, push_angle)`.
The bottle argument only contributes `bottle['world_x']` and
`bottle['world_y']`. -/
noncomputable def generate_push_trajectory (world_x world_y push_angle : ℝ) :
    Option (List Waypoint) :=
  resolveAll (mkPushWaypoints world_x world_y push_angle)

/-- 3D Euclidean distance between the world positions of two waypoints, as
computed inside `smooth_trajectory` (second minus first). -/
noncomputable def wpDist (a b : Waypoint) : ℝ :=
  Real.sqrt ((b.world_coords.x - a.world_coords.x) ^ 2 +
    (b.world_coords.y - a.world_coords.y) ^ 2 +
    (b.world_coords.z - a.world_coords.z) ^ 2)

/-- The duration assigned to interior index `i` by the loop body of
`smooth_trajectory` (`max_speed = 0.1`, floor `0.5`). -/
noncomputable def smoothDuration (t : List Waypoint) (i : ℕ) : ℝ :=
  max 0.5 (max (wpDist (t.getD (i - 1) default) (t.getD i default))
               (wpDist (t.getD i default) (t.getD (i + 1) default)) / 0.1)

/-- Embedding of `TrajectoryPlanner.smooth_trajectory(trajectory)`.  The Python loop
mutates only the `duration` of indices `1 .. len-2`; world coordinates are
never written, so the in-place update equals this index-wise recomputation. -/
noncomputable def smooth_trajectory (t : List Waypoint) : List Waypoint :=
  (List.range t.length).map fun i =>
    let w := t.getD i default
    if 1 ≤ i ∧ i + 1 < t.length then { w with duration := smoothDuration t i }
    else w

/-- One detector output consumed by `detect_bottles`: class label,
confidence, and the `xyxy` bounding box corners. -/
structure Detection where
  class_name : String
  conf : ℝ
  x1 : ℝ
  y1 : ℝ
  x2 : ℝ
  y2 : ℝ

/-- A kept detection as built by `detect_bottles`. -/
structure Bottle where
  pixel_x : ℤ
  pixel_y : ℤ
  world_x : ℝ
  world_y : ℝ
  world_z : ℝ
  confidence : ℝ
  class_name : String
  bbox : List ℝ

/-- Does `sub` occur as a prefix of `hay`? -/
def prefixAt : List Char → List Char → Bool
  | [], _ => true
  | _ :: _, [] => false
  | a :: as, b :: bs => a == b && prefixAt as bs

/-- Does `sub` occur as a contiguous substring of `hay`?  This is Python's
`sub in hay` on strings. -/
def containsSub (sub : List Char) : List Char → Bool
  | [] => prefixAt sub []
  | b :: bs => prefixAt sub (b :: bs) || containsSub sub bs

/-- The class filter of `detect_bottles`:
`'bottle' in class_name.lower() or 'cup' in ... or 'can' in ...`. -/
def matchesTargetLabel (s : String) : Bool :=
  let low := s.toList.map Char.toLower
  containsSub ("bottle".toList) low || containsSub ("cup".toList) low ||
    containsSub ("can".toList) low

/-- Python `int()` applied to a float: truncation toward zero. -/
noncomputable def pyInt (r : ℝ) : ℤ := if r < 0 then ⌈r⌉ else ⌊r⌋

/-- The uncalibrated fallback branch of `TrajectoryPlanner.pixel_to_world`
(`self.camera_params is None`). -/
noncomputable def pixel_to_world (px py : ℤ) : ℝ × ℝ :=
  (0.15 + ((px : ℝ) - 320) * 0.0003, ((py : ℝ) - 240) * 0.0003)

open Classical in
/-- Embedding of `TrajectoryPlanner.detect_bottles(frame, model)`.  The detector is
external: its output list of detections is the argument; the effective
pixel-to-world conversion (which depends on the loaded calibration) is the
parameter `p2w`.  A detection is kept when its class matches the allow-list,
its confidence is strictly above `0.3`, and `is_in_workspace` holds for its
projected center with `z = 0.0` (the table-surface assumption of the
source). -/
noncomputable def detect_bottles (p2w : ℤ → ℤ → ℝ × ℝ) :
    List Detection → List Bottle
  | [] => []
  | d :: ds =>
    let rest := detect_bottles p2w ds
    if matchesTargetLabel d.class_name = true ∧ d.conf > 0.3 then
      let center_x := pyInt ((d.x1 + d.x2) / 2)
      let center_y := pyInt ((d.y1 + d.y2) / 2)
      let w := p2w center_x center_y
      if is_in_workspace w.1 w.2 0.0 then
        ⟨center_x, center_y, w.1, w.2, 0.0, d.conf, d.class_name,
         [d.x1, d.y1, d.x2, d.y2]⟩ :: rest
      else rest
    else rest

/-- A concrete three-waypoint trajectory used to instantiate the smoothing
theorems: distances to the middle waypoint are `0.05` and `0.12`. -/
noncomputable def wA : Waypoint := ⟨"start", ⟨0, 0, 0⟩, 2, default⟩

/-- Middle waypoint of the concrete test trajectory. -/
noncomputable def wB : Waypoint := ⟨"mid", ⟨0.03, 0.04, 0⟩, 1, default⟩

/-- Final waypoint of the concrete test trajectory. -/
noncomputable def wC : Waypoint := ⟨"end", ⟨0.03, 0.04, 0.12⟩, 3, default⟩

/-- The concrete test trajectory. -/
noncomputable def t3 : List Waypoint := [wA, wB, wC]

end TrajectoryPlanner

namespace LerobotYolo

/-- Embedding of the radial-clamp phase of `inverse_kinematics` in `lerobot_yolo.py`:
rescale onto the maximum-reach circle when `r > l1 + l2`, then rescale up to
the minimum-reach circle when `0 < r < |l1 - l2|`.  Returns the final
`(x, y, r)` triple. -/
noncomputable def clampToWorkspace (x y l1 l2 : ℝ) : ℝ × ℝ × ℝ :=
  let r := Real.sqrt (x ^ 2 + y ^ 2)
  let r_max := l1 + l2
  let p1 := if r > r_max then (x * (r_max / r), y * (r_max / r), r_max)
            else (x, y, r)
  let r_min := |l1 - l2|
  if p1.2.2 < r_min ∧ p1.2.2 > 0 then
    (p1.1 * (r_min / p1.2.2), p1.2.1 * (r_min / p1.2.2), r_min)
  else p1

/-- Value of `cos_theta2` as computed by `lerobot_yolo.inverse_kinematics` from the
post-clamp radius.  The source does NOT clamp this value into `[-1, 1]`. -/
noncomputable def cosTheta2 (r l1 l2 : ℝ) : ℝ :=
  -(r ^ 2 - l1 ^ 2 - l2 ^ 2) / (2 * l1 * l2)

/-- The angle-solving phase of `lerobot_yolo.inverse_kinematics`, applied to
the post-clamp `(x, y, r)`.  `none` models the two uncaught Python
exceptions: `ZeroDivisionError` when `2*l1*l2 == 0`, and the `math.acos`
domain error when `cos_theta2` lies outside `[-1, 1]`. -/
noncomputable def ikFromClamped (x y r l1 l2 : ℝ) : Option (ℝ × ℝ) :=
  if 2 * l1 * l2 = 0 then none
  else
    let c := cosTheta2 r l1 l2
    if c < -1 ∨ 1 < c then none
    else
      let theta1_offset := atan2 0.028 0.11257
      let theta2_offset := atan2 0.0052 0.1349 + theta1_offset
      let theta2 := Real.pi - Real.arccos c
      let beta := atan2 y x
      let gamma := atan2 (l2 * Real.sin theta2) (l1 + l2 * Real.cos theta2)
      let theta1 := beta + gamma
      let joint2 := theta1 + theta1_offset
      let joint3 := theta2 + theta2_offset
      let joint2 := max (-0.1) (min 3.45 joint2)
      let joint3 := max (-0.2) (min Real.pi joint3)
      some (90 - degrees joint2, degrees joint3 - 90)

/-- Embedding of `inverse_kinematics(x, y, l1=0.1159, l2=0.1350)` from `lerobot_yolo.py`
(the identical copy lives in `demo_integrated.py`).  Returns the
`(joint2_deg, joint3_deg)` pair; `none` models an uncaught exception. -/
noncomputable def inverse_kinematics (x y l1 l2 : ℝ) : Option (ℝ × ℝ) :=
  let c := clampToWorkspace x y l1 l2
  ikFromClamped c.1 c.2.1 c.2.2 l1 l2

end LerobotYolo

namespace CoordinateTransformer

/-- One `(pixel_x, pixel_y, world_x, world_y)` reference-point tuple. -/
structure RefPoint where
  pixel_x : ℝ
  pixel_y : ℝ
  world_x : ℝ
  world_y : ℝ

/-- The mutable homography slot of a `CoordinateTransformer`
(`self.homography_matrix`, absent until calibration succeeds). -/
structure TransformerState where
  homography_matrix : Option (Matrix (Fin 3) (Fin 3) ℝ)

/-- The record persisted to `config/workspace_calibration.json` on success. -/
structure WorkspaceCalibRecord where
  homography_matrix : Matrix (Fin 3) (Fin 3) ℝ
  reference_points : List RefPoint

/-- Embedding of `CoordinateTransformer.calibrate_workspace(reference_points)`.
`cv2.findHomography` is external; it is the parameter `findHomography`
(`none` models its `None` result).  Returns the success flag, the updated
transformer state, and the persisted record (or `none` when nothing was
written). -/
def calibrate_workspace
    (findHomography : List RefPoint → Option (Matrix (Fin 3) (Fin 3) ℝ))
    (st : TransformerState) (reference_points : List RefPoint) :
    Bool × TransformerState × Option WorkspaceCalibRecord :=
  if reference_points.length < 4 then (false, st, none)
  else
    match findHomography reference_points with
    | some h => (true, { st with homography_matrix := some h },
                 some ⟨h, reference_points⟩)
    | none => (false, st, none)

/-- Three reference points: too few for calibration. -/
noncomputable def refPts3 : List RefPoint :=
  [⟨0, 0, 0, 0⟩, ⟨100, 0, 0.1, 0⟩, ⟨100, 100, 0.1, 0.1⟩]

/-- Four reference points: enough for calibration. -/
noncomputable def refPts4 : List RefPoint :=
  [⟨0, 0, 0, 0⟩, ⟨100, 0, 0.1, 0⟩, ⟨100, 100, 0.1, 0.1⟩, ⟨0, 100, 0, 0.1⟩]

end CoordinateTransformer

namespace TrajectoryPlanner

/-- Evaluate a square root whose argument is a perfect square. -/
lemma sqrt_eval {a b : ℝ} (hb : 0 ≤ b) (h : a = b ^ 2) : Real.sqrt a = b := by
  rw [h, Real.sqrt_sq hb]

/-- The function `smooth_trajectory` keeps the length of its input. -/
lemma smooth_trajectory_length (t : List Waypoint) :
    (smooth_trajectory t).length = t.length := by
  simp [smooth_trajectory]

/-- Pointwise description of `smooth_trajectory`. -/
lemma smooth_getD (t : List Waypoint) (i : ℕ) (h : i < t.length) :
    (smooth_trajectory t).getD i default =
      (if 1 ≤ i ∧ i + 1 < t.length then
        { t.getD i default with duration := smoothDuration t i }
      else t.getD i default) := by
  rw [smooth_trajectory,
    List.getD_eq_getElem _ _ (by simpa using h)]
  simp

end TrajectoryPlanner

open TrajectoryPlanner in
/-- C4: for every non-empty trajectory, `smooth_trajectory` leaves the first
and last durations unchanged and sets every interior duration to
`max 0.5 (max dist_to_prev dist_to_next / 0.1)`, which is never below the
`0.5` floor. -/
theorem smooth_trajectory_duration_rule (t : List Waypoint) (ht : t ≠ []) :
    ((smooth_trajectory t).getD 0 default).duration =
      (t.getD 0 default).duration ∧
    ((smooth_trajectory t).getD (t.length - 1) default).duration =
      (t.getD (t.length - 1) default).duration ∧
    ∀ i, 0 < i → i + 1 < t.length →
      ((smooth_trajectory t).getD i default).duration =
        max 0.5 (max (wpDist (t.getD (i - 1) default) (t.getD i default))
                     (wpDist (t.getD i default) (t.getD (i + 1) default))
                 / 0.1) ∧
      0.5 ≤ ((smooth_trajectory t).getD i default).duration := by
  have hlen : 0 < t.length := List.length_pos.mpr ht
  refine ⟨?_, ?_, ?_⟩
  · rw [smooth_getD t 0 hlen, if_neg (by omega)]
  · rw [smooth_getD t (t.length - 1) (by omega), if_neg (by omega)]
  · intro i h0 h1
    rw [smooth_getD t i (by omega), if_pos ⟨h0, h1⟩]
    exact ⟨rfl, le_max_left _ _⟩

namespace TrajectoryPlanner

lemma wpDist_wA_wB : wpDist wA wB = 0.05 := by
  rw [wpDist]
  exact sqrt_eval (by norm_num) (by norm_num [wA, wB])

lemma wpDist_wB_wC : wpDist wB wC = 0.12 := by
  rw [wpDist]
  exact sqrt_eval (by norm_num) (by norm_num [wB, wC])

end TrajectoryPlanner

open TrajectoryPlanner in
/-- Witness for C4 on the concrete trajectory `t3`: the interior duration
becomes `max 0.5 (max 0.05 0.12 / 0.1) = 1.2` and the endpoint durations
stay `2` and `3`. -/
theorem smooth_trajectory_duration_rule_witness :
    ((smooth_trajectory t3).getD 1 default).duration = 1.2 ∧
    0.5 ≤ ((smooth_trajectory t3).getD 1 default).duration ∧
    ((smooth_trajectory t3).getD 0 default).duration = 2 ∧
    ((smooth_trajectory t3).getD 2 default).duration = 3 := by
  obtain ⟨h0, hlast, hint⟩ :=
    smooth_trajectory_duration_rule t3 (by simp [t3])
  obtain ⟨hdur, hfloor⟩ := hint 1 (by norm_num) (by simp [t3])
  have g0 : t3.getD 0 default = wA := rfl
  have g1 : t3.getD 1 default = wB := rfl
  have g2 : t3.getD 2 default = wC := rfl
  have hl : t3.length - 1 = 2 := rfl
  rw [g0, g1, g2, wpDist_wA_wB, wpDist_wB_wC] at hdur
  refine ⟨?_, hfloor, ?_, ?_⟩
  · rw [hdur, max_eq_right (by norm_num : (0.05:ℝ) ≤ 0.12)]
    rw [show (0.12:ℝ) / 0.1 = 1.2 by norm_num]
    exact max_eq_right (by norm_num)
  · rw [h0, g0]; rfl
  · rw [hl] at hlast; rw [hlast, g2]; rfl

open TrajectoryPlanner in
/-- C10: `smooth_trajectory` changes only durations: every waypoint keeps
its name, world coordinates and joint angles, and the first and last
waypoints are unchanged in every field. -/
theorem smooth_trajectory_preserves_fields (t : List Waypoint) (ht : t ≠ []) :
    (smooth_trajectory t).length = t.length ∧
    (∀ i, i < t.length →
      ((smooth_trajectory t).getD i default).name = (t.getD i default).name ∧
      ((smooth_trajectory t).getD i default).world_coords =
        (t.getD i default).world_coords ∧
      ((smooth_trajectory t).getD i default).joint_angles =
        (t.getD i default).joint_angles) ∧
    (smooth_trajectory t).getD 0 default = t.getD 0 default ∧
    (smooth_trajectory t).getD (t.length - 1) default =
      t.getD (t.length - 1) default := by
  have hlen : 0 < t.length := List.length_pos.mpr ht
  refine ⟨smooth_trajectory_length t, ?_, ?_, ?_⟩
  · intro i hi
    rw [smooth_getD t i hi]
    split
    · exact ⟨rfl, rfl, rfl⟩
    · exact ⟨rfl, rfl, rfl⟩
  · rw [smooth_getD t 0 hlen, if_neg (by omega)]
  · rw [smooth_getD t (t.length - 1) (by omega), if_neg (by omega)]

open TrajectoryPlanner in
/-- Witness for C10 on the concrete trajectory `t3`. -/
theorem smooth_trajectory_preserves_fields_witness :
    (smooth_trajectory t3).length = 3 ∧
    ((smooth_trajectory t3).getD 1 default).name = "mid" ∧
    ((smooth_trajectory t3).getD 1 default).world_coords = wB.world_coords ∧
    ((smooth_trajectory t3).getD 1 default).joint_angles = wB.joint_angles ∧
    (smooth_trajectory t3).getD 0 default = wA ∧
    (smooth_trajectory t3).getD 2 default = wC := by
  obtain ⟨hlen, hfields, h0, hlast⟩ :=
    smooth_trajectory_preserves_fields t3 (by simp [t3])
  obtain ⟨hn, hw, hj⟩ := hfields 1 (by simp [t3])
  have g0 : t3.getD 0 default = wA := rfl
  have g1 : t3.getD 1 default = wB := rfl
  have g2 : t3.getD 2 default = wC := rfl
  have hl : t3.length - 1 = 2 := rfl
  rw [hl] at hlast
  rw [g1] at hn hw hj
  exact ⟨hlen, hn.trans rfl, hw, hj, by rw [h0, g0], by rw [hlast, g2]⟩

namespace TrajectoryPlanner

/-- For positive `x`, `atan2 0 x = 0`. -/
lemma atan2_zero_pos (x : ℝ) (hx : 0 < x) : atan2 0 x = 0 := by
  rw [atan2, if_pos hx, zero_div, Real.arctan_zero]

/-- Numeric value of the minimum-reach radius `|l1 - l2|`. -/
lemma abs_l1_sub_l2 : |(0.1159 : ℝ) - 0.1350| = 0.0191 := by
  rw [abs_of_neg (show (0.1159 : ℝ) - 0.1350 < 0 by norm_num)]
  norm_num

/-- The planner IK succeeds exactly on targets within the reach annulus. -/
lemma ik_isSome_iff (x y : ℝ) :
    (inverse_kinematics x y).isSome ↔
      ¬(Real.sqrt (x * x + y * y) > l1 + l2 ∨
        Real.sqrt (x * x + y * y) < |l1 - l2|) := by
  rw [inverse_kinematics]
  split
  · rename_i h; simp [h]
  · rename_i h; simp [h]

/-- Sufficient squared-radius bounds for the planner IK to succeed:
`0.0191² = 0.00036481` and `0.2509² = 0.06295081`. -/
lemma ik_some_of_sq_bounds (x y : ℝ) (hlo : 0.00036481 ≤ x * x + y * y)
    (hhi : x * x + y * y ≤ 0.06295081) : (inverse_kinematics x y).isSome := by
  have hnn : (0 : ℝ) ≤ x * x + y * y := by nlinarith [sq_nonneg x, sq_nonneg y]
  have h1 : Real.sqrt (x * x + y * y) ≤ l1 + l2 := by
    rw [l1, l2]
    exact (Real.sqrt_le_left (by norm_num)).mpr (by norm_num; linarith)
  have h2 : (0.0191 : ℝ) ≤ Real.sqrt (x * x + y * y) :=
    (Real.le_sqrt (by norm_num) hnn).mpr (by norm_num; linarith)
  rw [ik_isSome_iff]
  rintro (h | h)
  · linarith
  · rw [l1, l2, abs_l1_sub_l2] at h; linarith

/-- The planner IK at the full-reach point `(l1 + l2, 0) = (0.2509, 0)`:
all six joints come out exactly zero. -/
lemma planner_ik_fullreach :
    inverse_kinematics 0.2509 0 = some ⟨0, 0, 0, 0, 0, 0⟩ := by
  have hd : Real.sqrt ((0.2509 : ℝ) * 0.2509 + 0 * 0) = 0.2509 :=
    sqrt_eval (by norm_num) (by norm_num)
  rw [inverse_kinematics]
  simp only [hd, l1, l2, abs_l1_sub_l2]
  rw [if_neg (by push_neg; constructor <;> norm_num)]
  have hcos : ((0.2509 : ℝ) * 0.2509 - 0.1159 * 0.1159 - 0.1350 * 0.1350) /
      (2 * 0.1159 * 0.1350) = 1 := by norm_num
  simp only [hcos]
  have hclamp : max (-1 : ℝ) (min 1 1) = 1 := by norm_num
  simp only [hclamp, Real.arccos_one, Real.sin_zero, Real.cos_zero, mul_zero,
    mul_one]
  rw [atan2_zero_pos _ (by norm_num), atan2_zero_pos _ (by norm_num)]
  simp [degrees]
  norm_num

/-- The planner IK at `(√(l1² + l2²), 0)`: the elbow solves to exactly 90
degrees, the shoulder to `−arctan (l2 / l1)` (in degrees), and the wrist
fields are the constant zeros. -/
lemma planner_ik_elbow90 :
    inverse_kinematics (Real.sqrt 0.03165781) 0 = some
      ⟨0, degrees (-Real.arctan (0.1350 / 0.1159)), degrees (Real.pi / 2),
       0, 0, 0⟩ := by
  have hx : (0 : ℝ) < Real.sqrt 0.03165781 := Real.sqrt_pos.mpr (by norm_num)
  have hmul : Real.sqrt 0.03165781 * Real.sqrt 0.03165781 = (0.03165781 : ℝ) :=
    Real.mul_self_sqrt (by norm_num)
  have hd : Real.sqrt (Real.sqrt 0.03165781 * Real.sqrt 0.03165781 + 0 * 0) =
      Real.sqrt 0.03165781 := by
    rw [show Real.sqrt 0.03165781 * Real.sqrt 0.03165781 + 0 * 0 =
      (0.03165781 : ℝ) by rw [hmul]; norm_num]
  rw [inverse_kinematics]
  simp only [hd, l1, l2, abs_l1_sub_l2]
  rw [if_neg (by
    push_neg
    constructor
    · exact (Real.sqrt_le_left (by norm_num)).mpr (by norm_num)
    · exact (Real.le_sqrt (by norm_num) (by norm_num)).mpr (by norm_num))]
  simp only [hmul]
  have hcos : ((0.03165781 : ℝ) - 0.1159 * 0.1159 - 0.1350 * 0.1350) /
      (2 * 0.1159 * 0.1350) = 0 := by norm_num
  simp only [hcos]
  have hclamp : max (-1 : ℝ) (min 1 0) = 0 := by norm_num
  simp only [hclamp, Real.arccos_zero, Real.sin_pi_div_two,
    Real.cos_pi_div_two, mul_zero, mul_one, add_zero]
  rw [atan2_zero_pos _ hx, atan2, if_pos (show (0 : ℝ) < 0.1159 by norm_num)]
  simp [degrees]
  norm_num

end TrajectoryPlanner

open TrajectoryPlanner in
/-- C6 (amended): every non-null pose returned by
`TrajectoryPlanner.inverse_kinematics` is a full 6-joint record whose wrist
pitch, wrist roll and gripper are the constant `0.0`; the wrist-levelling
rule lives in the downstream control loop, not in the IK return. -/
theorem planner_ik_wrist_constant_zero (x y : ℝ) (ja : JointAngles)
    (h : inverse_kinematics x y = some ja) :
    ja.wrist_flex = 0 ∧ ja.wrist_roll = 0 ∧ ja.gripper = 0 := by
  rw [inverse_kinematics] at h
  split at h
  · exact absurd h (by simp)
  · simp only [Option.some.injEq] at h
    rw [← h]
    refine ⟨by norm_num, by norm_num, by norm_num⟩

open TrajectoryPlanner in
/-- Witness for the amended C6 at the concrete reachable target
`(0.2509, 0)`. -/
theorem planner_ik_wrist_constant_zero_witness :
    (inverse_kinematics 0.2509 0).map JointAngles.wrist_flex = some 0 ∧
    (inverse_kinematics 0.2509 0).map JointAngles.wrist_roll = some 0 ∧
    (inverse_kinematics 0.2509 0).map JointAngles.gripper = some 0 := by
  obtain ⟨h1, h2, h3⟩ :=
    planner_ik_wrist_constant_zero 0.2509 0 _ planner_ik_fullreach
  rw [planner_ik_fullreach]
  refine ⟨?_, ?_, ?_⟩ <;> simp [h1, h2, h3]

open TrajectoryPlanner in
/-- C6 (counterexample): no fixed `pitch_trim` makes the wrist pitch
returned by `TrajectoryPlanner.inverse_kinematics` equal to
`−shoulder − elbow + pitch_trim` for every solved pose.  The pose at
`(0.2509, 0)` forces `pitch_trim = 0`, and the pose at `(√0.03165781, 0)`
then contradicts the rule, since its wrist pitch is `0` while
`−shoulder − elbow = arctan (l2/l1)·180/π − 90 ≠ 0`. -/
theorem planner_ik_wrist_not_level_rule :
    ¬∃ pitch_trim : ℝ, ∀ x y ja, inverse_kinematics x y = some ja →
        ja.wrist_flex = -ja.shoulder_lift - ja.elbow_flex + pitch_trim := by
  rintro ⟨t, hall⟩
  have hA := hall 0.2509 0 _ planner_ik_fullreach
  have hB := hall (Real.sqrt 0.03165781) 0 _ planner_ik_elbow90
  simp only at hA hB
  have ht : t = 0 := by linarith [hA]
  subst ht
  rw [degrees, degrees] at hB
  have hπ : (0 : ℝ) < Real.pi := Real.pi_pos
  have hB2 : Real.arctan (0.1350 / 0.1159) * 180 / Real.pi =
      Real.pi / 2 * 180 / Real.pi := by
    field_simp at hB ⊢
    linarith [hB]
  have h90 : Real.pi / 2 * 180 / Real.pi = 90 := by
    field_simp
    ring
  rw [h90] at hB2
  have harc : Real.arctan (0.1350 / 0.1159) < Real.pi / 2 :=
    Real.arctan_lt_pi_div_two _
  have : Real.arctan (0.1350 / 0.1159) * 180 / Real.pi < 90 := by
    rw [div_lt_iff₀ hπ]
    nlinarith
  linarith

namespace TrajectoryPlanner

/-- Resolving one waypoint succeeds exactly when its IK succeeds. -/
lemma resolveWaypoint_isSome (w : WaypointSpec) :
    (resolveWaypoint w).isSome ↔
      (inverse_kinematics w.world_coords.x w.world_coords.y).isSome := by
  rw [resolveWaypoint]
  cases inverse_kinematics w.world_coords.x w.world_coords.y <;> simp

/-- The resolution loop succeeds exactly when every waypoint's IK does. -/
lemma resolveAll_isSome (ws : List WaypointSpec) :
    (resolveAll ws).isSome ↔
      ∀ w ∈ ws,
        (inverse_kinematics w.world_coords.x w.world_coords.y).isSome := by
  induction ws with
  | nil => simp [resolveAll]
  | cons w ws ih =>
    cases hw : resolveWaypoint w with
    | none =>
      have hik : ¬(inverse_kinematics w.world_coords.x w.world_coords.y).isSome := by
        rw [← resolveWaypoint_isSome, hw]; simp
      simp [resolveAll, hw, List.forall_mem_cons, hik]
    | some r =>
      have hik : (inverse_kinematics w.world_coords.x w.world_coords.y).isSome := by
        rw [← resolveWaypoint_isSome, hw]; simp
      cases hr : resolveAll ws with
      | none =>
        have hws : ¬∀ v ∈ ws,
            (inverse_kinematics v.world_coords.x v.world_coords.y).isSome := by
          rw [← ih, hr]; simp
        simp [resolveAll, hw, hr, List.forall_mem_cons, hik, hws]
      | some rs =>
        have hws : ∀ v ∈ ws,
            (inverse_kinematics v.world_coords.x v.world_coords.y).isSome := by
          rw [← ih, hr]; simp
        simp only [resolveAll, hw, hr, Option.isSome_some, true_iff,
          List.forall_mem_cons, hik, true_and]
        exact hws

/-- A successful resolution keeps each waypoint's name and world position,
in order. -/
lemma resolveAll_proj (ws : List WaypointSpec) (rs : List Waypoint)
    (h : resolveAll ws = some rs) :
    rs.map (fun r => (r.name, r.world_coords)) =
      ws.map (fun w => (w.name, w.world_coords)) := by
  induction ws generalizing rs with
  | nil =>
    rw [resolveAll] at h
    simp only [Option.some.injEq] at h
    rw [← h]
    simp
  | cons w ws ih =>
    rw [resolveAll] at h
    cases hw : resolveWaypoint w with
    | none => rw [hw] at h; cases h
    | some r =>
      rw [hw] at h
      cases hr : resolveAll ws with
      | none => rw [hr] at h; cases h
      | some rs2 =>
        rw [hr] at h
        simp only [Option.some.injEq] at h
        rw [← h]
        have hparts : r.name = w.name ∧ r.world_coords = w.world_coords := by
          rw [resolveWaypoint] at hw
          cases hik : inverse_kinematics w.world_coords.x w.world_coords.y with
          | none => rw [hik] at hw; cases hw
          | some ja =>
            rw [hik] at hw
            simp only [Option.some.injEq] at hw
            rw [← hw]
            exact ⟨rfl, rfl⟩
        simp only [List.map_cons, hparts.1, hparts.2, ih rs2 hr]

/-- Evaluation of `mkPushWaypoints` at push angle `0`. -/
lemma mkPushWaypoints_angle_zero (bx wy : ℝ) :
    mkPushWaypoints bx wy 0 =
      [⟨"start", ⟨0.15, 0.0, 0.15⟩, 2.0⟩,
       ⟨"above_bottle", ⟨bx, wy, 0.12⟩, 2.0⟩,
       ⟨"approach", ⟨bx - 0.03, wy, 0.08⟩, 1.5⟩,
       ⟨"pre_contact", ⟨bx - 0.01, wy, 0.08⟩, 1.0⟩,
       ⟨"contact", ⟨bx, wy, 0.08⟩, 0.5⟩,
       ⟨"push_through", ⟨bx + 0.05, wy, 0.08⟩, 2.0⟩,
       ⟨"retract", ⟨bx + 0.05, wy, 0.12⟩, 1.5⟩,
       ⟨"return_home", ⟨0.15, 0.0, 0.15⟩, 3.0⟩] := by
  rw [mkPushWaypoints]
  simp only [Real.cos_zero, Real.sin_zero, safe_height, approach_height,
    contact_height, push_distance]
  norm_num

end TrajectoryPlanner

open TrajectoryPlanner in
/-- C1 (amended): `generate_push_trajectory` is all-or-nothing with respect
to IK reachability only: it returns a trajectory exactly when every
synthesized waypoint is IK-reachable, and a returned trajectory always has
all 8 waypoints.  No workspace re-validation is performed (see the
counterexample). -/
theorem generate_push_trajectory_atomic_ik (wx wy θ : ℝ) :
    ((generate_push_trajectory wx wy θ).isSome ↔
      ∀ w ∈ mkPushWaypoints wx wy θ,
        (inverse_kinematics w.world_coords.x w.world_coords.y).isSome) ∧
    ∀ traj, generate_push_trajectory wx wy θ = some traj →
      traj.length = 8 := by
  constructor
  · rw [generate_push_trajectory]
    exact resolveAll_isSome _
  · intro traj h
    have hm := resolveAll_proj _ _ h
    have hlen := congrArg List.length hm
    simp only [List.length_map] at hlen
    rw [hlen]
    simp [mkPushWaypoints]

open TrajectoryPlanner in
/-- Witness for the amended C1: for the in-reach bottle `(0.15, 0)` with
push angle `0` a trajectory is produced. -/
theorem generate_push_trajectory_atomic_ik_witness :
    (generate_push_trajectory 0.15 0 0).isSome := by
  refine (generate_push_trajectory_atomic_ik 0.15 0 0).1.mpr ?_
  rw [mkPushWaypoints_angle_zero]
  intro w hw
  fin_cases hw <;>
    exact ik_some_of_sq_bounds _ _ (by norm_num) (by norm_num)

open TrajectoryPlanner in
/-- C1 (counterexample): for the bottle `(0.2005, 0)` with push angle `0`
— a target inside the workspace box — `generate_push_trajectory` returns a
trajectory even though its `push_through` waypoint `(0.2505, 0, 0.08)` lies
outside `workspace` (`x_max = 0.25`): the claimed post-IK workspace
re-validation does not exist in the code. -/
theorem generate_push_trajectory_out_of_workspace_waypoint :
    ∃ traj, generate_push_trajectory 0.2005 0 0 = some traj ∧
      ∃ w ∈ traj,
        ¬is_in_workspace w.world_coords.x w.world_coords.y
          w.world_coords.z := by
  have hsome : (generate_push_trajectory 0.2005 0 0).isSome := by
    rw [generate_push_trajectory, resolveAll_isSome, mkPushWaypoints_angle_zero]
    intro w hw
    fin_cases hw <;>
      exact ik_some_of_sq_bounds _ _ (by norm_num) (by norm_num)
  obtain ⟨traj, htraj⟩ := Option.isSome_iff_exists.mp hsome
  refine ⟨traj, htraj, ?_⟩
  have hm := resolveAll_proj _ _ htraj
  rw [mkPushWaypoints_angle_zero] at hm
  have hmem : ("push_through", (⟨0.2005 + 0.05, 0, 0.08⟩ : WorldCoords)) ∈
      traj.map (fun r => (r.name, r.world_coords)) := by
    rw [hm]; simp
  obtain ⟨r, hr, hfr⟩ := List.mem_map.mp hmem
  refine ⟨r, hr, ?_⟩
  have hwc : r.world_coords = ⟨0.2005 + 0.05, 0, 0.08⟩ := congrArg Prod.snd hfr
  rw [hwc]
  norm_num [is_in_workspace, workspace]

open TrajectoryPlanner in
/-- C2: whenever `generate_push_trajectory` succeeds it returns exactly the
8 waypoints, in the fixed phase order, with the documented world-position
rules (approach/pre-contact offsets along the push direction, push-through
displaced by `push_distance`, endpoints at the neutral `(0.15, 0)` at safe
height). -/
theorem generate_push_trajectory_phases (wx wy θ : ℝ) (traj : List Waypoint)
    (h : generate_push_trajectory wx wy θ = some traj) :
    traj.map (fun w => (w.name, w.world_coords)) =
      [("start", ⟨0.15, 0.0, 0.15⟩),
       ("above_bottle", ⟨wx, wy, 0.12⟩),
       ("approach", ⟨wx - Real.cos θ * 0.03, wy - Real.sin θ * 0.03, 0.08⟩),
       ("pre_contact", ⟨wx - Real.cos θ * 0.01, wy - Real.sin θ * 0.01, 0.08⟩),
       ("contact", ⟨wx, wy, 0.08⟩),
       ("push_through",
        ⟨wx + Real.cos θ * 0.05, wy + Real.sin θ * 0.05, 0.08⟩),
       ("retract", ⟨wx + Real.cos θ * 0.05, wy + Real.sin θ * 0.05, 0.12⟩),
       ("return_home", ⟨0.15, 0.0, 0.15⟩)] := by
  rw [generate_push_trajectory] at h
  rw [resolveAll_proj _ _ h]
  simp [mkPushWaypoints, safe_height, approach_height, contact_height,
    push_distance]

open TrajectoryPlanner in
/-- Witness for C2 at the spec scenario: target `(0.18, 0.05)`, push angle
`0`; in particular the `push_through` world position is
`(0.23, 0.05, 0.08)`. -/
theorem generate_push_trajectory_phases_witness :
    (generate_push_trajectory 0.18 0.05 0).map
        (List.map fun w => (w.name, w.world_coords)) =
      some [("start", (⟨0.15, 0.0, 0.15⟩ : WorldCoords)),
            ("above_bottle", ⟨0.18, 0.05, 0.12⟩),
            ("approach", ⟨0.15, 0.05, 0.08⟩),
            ("pre_contact", ⟨0.17, 0.05, 0.08⟩),
            ("contact", ⟨0.18, 0.05, 0.08⟩),
            ("push_through", ⟨0.23, 0.05, 0.08⟩),
            ("retract", ⟨0.23, 0.05, 0.12⟩),
            ("return_home", ⟨0.15, 0.0, 0.15⟩)] := by
  have hsome : (generate_push_trajectory 0.18 0.05 0).isSome := by
    rw [generate_push_trajectory, resolveAll_isSome, mkPushWaypoints_angle_zero]
    intro w hw
    fin_cases hw <;>
      exact ik_some_of_sq_bounds _ _ (by norm_num) (by norm_num)
  obtain ⟨traj, htraj⟩ := Option.isSome_iff_exists.mp hsome
  have h := generate_push_trajectory_phases 0.18 0.05 0 traj htraj
  rw [htraj]
  simp only [Option.map_some']
  rw [h]
  norm_num [Real.cos_zero, Real.sin_zero]

namespace LerobotYolo

/-- At the exact origin both rescale guards are skipped (the minimum-reach
guard requires `r > 0`), so the clamp phase returns `(0, 0, 0)`. -/
lemma clamp_origin :
    clampToWorkspace 0 0 0.1159 0.1350 = ((0 : ℝ), (0 : ℝ), (0 : ℝ)) := by
  have h0 : Real.sqrt ((0 : ℝ) ^ 2 + 0 ^ 2) = 0 := by
    rw [show ((0 : ℝ) ^ 2 + 0 ^ 2) = (0 : ℝ) by norm_num]
    exact Real.sqrt_zero
  simp only [clampToWorkspace, h0]
  norm_num

/-- The clamping IK raises at the exact origin with the default unequal
link lengths: `none` models the uncaught `math.acos` domain error. -/
lemma lerobot_ik_origin :
    inverse_kinematics 0 0 0.1159 0.1350 = none := by
  simp only [inverse_kinematics, clamp_origin, ikFromClamped, cosTheta2]
  norm_num

/-- With positive link lengths and a non-origin target, the post-clamp
radius lies in the closed reach annulus `[|l1 - l2|, l1 + l2]`. -/
lemma clamp_radius_bounds (x y l1 l2 : ℝ) (h1 : 0 < l1) (h2 : 0 < l2)
    (h3 : 0 < x ^ 2 + y ^ 2) :
    |l1 - l2| ≤ (clampToWorkspace x y l1 l2).2.2 ∧
    (clampToWorkspace x y l1 l2).2.2 ≤ l1 + l2 := by
  have hr : 0 < Real.sqrt (x ^ 2 + y ^ 2) := Real.sqrt_pos.mpr h3
  have habs : |l1 - l2| < l1 + l2 := abs_lt.mpr ⟨by linarith, by linarith⟩
  simp only [clampToWorkspace, gt_iff_lt]
  split_ifs with hA hB1 hB2
  · exact absurd hB1.1 (not_lt.mpr habs.le)
  · exact ⟨habs.le, le_refl _⟩
  · exact ⟨le_refl _, habs.le⟩
  · constructor
    · by_contra hc
      push_neg at hc hB2
      exact absurd hr (not_lt.mpr (hB2 hc))
    · exact not_lt.mp hA

/-- C3-supporting totality: away from the origin, with positive link
lengths, the angle-solving phase never hits an `acos` domain error. -/
lemma ik_total_aux (x y l1 l2 : ℝ) (h1 : 0 < l1) (h2 : 0 < l2)
    (h3 : 0 < x ^ 2 + y ^ 2) : (inverse_kinematics x y l1 l2).isSome := by
  obtain ⟨hlo, hhi⟩ := clamp_radius_bounds x y l1 l2 h1 h2 h3
  have h2l : (0 : ℝ) < 2 * l1 * l2 := by positivity
  have hr0 : (0 : ℝ) ≤ (clampToWorkspace x y l1 l2).2.2 :=
    le_trans (abs_nonneg _) hlo
  have hsq1 : (l1 - l2) ^ 2 ≤ (clampToWorkspace x y l1 l2).2.2 ^ 2 := by
    rw [← sq_abs (l1 - l2)]
    exact pow_le_pow_left₀ (abs_nonneg _) hlo 2
  have hsq2 : (clampToWorkspace x y l1 l2).2.2 ^ 2 ≤ (l1 + l2) ^ 2 :=
    pow_le_pow_left₀ hr0 hhi 2
  have hcb : ¬(cosTheta2 (clampToWorkspace x y l1 l2).2.2 l1 l2 < -1 ∨
      1 < cosTheta2 (clampToWorkspace x y l1 l2).2.2 l1 l2) := by
    rw [cosTheta2]
    push_neg
    constructor
    · rw [le_div_iff₀ h2l]
      nlinarith
    · rw [div_le_one h2l]
      nlinarith
  simp only [inverse_kinematics, ikFromClamped]
  rw [if_neg h2l.ne', if_neg hcb]
  simp

end LerobotYolo

open LerobotYolo in
/-- C3 (amended): for every non-origin target and positive link lengths the
clamping IK returns a pose; the failure modes missing from the claim are
the exact origin with `l1 ≠ l2` (acos domain error, see the counterexample)
and a zero link length (division by zero). -/
theorem clamping_ik_total_on_nonzero (x y l1 l2 : ℝ) (h1 : 0 < l1)
    (h2 : 0 < l2) (h3 : 0 < x ^ 2 + y ^ 2) :
    (LerobotYolo.inverse_kinematics x y l1 l2).isSome :=
  ik_total_aux x y l1 l2 h1 h2 h3

open LerobotYolo in
/-- Witness for the amended C3 at the reachable target `(0.15, 0.08)` with
the default link lengths. -/
theorem clamping_ik_total_on_nonzero_witness :
    (0 : ℝ) < 0.1159 ∧ (0 : ℝ) < 0.1350 ∧
    (0 : ℝ) < (0.15 : ℝ) ^ 2 + (0.08 : ℝ) ^ 2 ∧
    (LerobotYolo.inverse_kinematics 0.15 0.08 0.1159 0.1350).isSome :=
  ⟨by norm_num, by norm_num, by norm_num,
   clamping_ik_total_on_nonzero 0.15 0.08 0.1159 0.1350 (by norm_num)
     (by norm_num) (by norm_num)⟩

open LerobotYolo in
/-- C3 (counterexample): at the origin, with the default non-degenerate
link lengths (`l1 > 0`), the clamping IK does not return a pose — it raises
a `math.acos` domain error, modelled as `none` — refuting the claim that a
non-result occurs only for `l1 = l2 = 0`. -/
theorem clamping_ik_fails_at_origin :
    LerobotYolo.inverse_kinematics 0 0 0.1159 0.1350 = none ∧
    ((0 : ℝ) < 0.1159 ∨ (0 : ℝ) < 0.1350) :=
  ⟨lerobot_ik_origin, Or.inl (by norm_num)⟩

open LerobotYolo in
/-- C9: at the exact origin with the default unequal link lengths, the
minimum-reach rescale is skipped (its `r > 0` guard fails), the clamp phase
yields radius `0`, and `cos_theta2 = (l1² + l2²)/(2·l1·l2) > 1` reaches
`math.acos` unclamped — an uncaught domain error instead of a pose. -/
theorem clamping_ik_origin_domain_error :
    LerobotYolo.clampToWorkspace 0 0 0.1159 0.1350 =
      ((0 : ℝ), (0 : ℝ), (0 : ℝ)) ∧
    LerobotYolo.cosTheta2 0 0.1159 0.1350 =
      ((0.1159 : ℝ) ^ 2 + (0.1350 : ℝ) ^ 2) / (2 * 0.1159 * 0.1350) ∧
    1 < LerobotYolo.cosTheta2 0 0.1159 0.1350 ∧
    LerobotYolo.inverse_kinematics 0 0 0.1159 0.1350 = none :=
  ⟨clamp_origin, by rw [LerobotYolo.cosTheta2]; norm_num,
   by rw [LerobotYolo.cosTheta2]; norm_num, lerobot_ik_origin⟩

open LerobotYolo in
/-- C5: for a target strictly beyond maximum reach, first rescaling it onto
the boundary circle and then solving gives exactly the same joint angles as
solving the original point (the solver rescales internally either way). -/
theorem clamping_ik_rescale_idempotent (x y l1 l2 : ℝ) (h1 : 0 < l1)
    (h2 : 0 < l2) (h : l1 + l2 < Real.sqrt (x ^ 2 + y ^ 2)) :
    LerobotYolo.inverse_kinematics
        (x * ((l1 + l2) / Real.sqrt (x ^ 2 + y ^ 2)))
        (y * ((l1 + l2) / Real.sqrt (x ^ 2 + y ^ 2))) l1 l2 =
      LerobotYolo.inverse_kinematics x y l1 l2 := by
  have hr : 0 < Real.sqrt (x ^ 2 + y ^ 2) := lt_trans (by positivity) h
  set r := Real.sqrt (x ^ 2 + y ^ 2) with hrdef
  have hxy : x ^ 2 + y ^ 2 = r ^ 2 := (Real.sq_sqrt (by positivity)).symm
  have hscaled :
      Real.sqrt ((x * ((l1 + l2) / r)) ^ 2 + (y * ((l1 + l2) / r)) ^ 2) =
        l1 + l2 := by
    rw [show (x * ((l1 + l2) / r)) ^ 2 + (y * ((l1 + l2) / r)) ^ 2 =
      ((l1 + l2) / r) ^ 2 * (x ^ 2 + y ^ 2) by ring, hxy,
      show ((l1 + l2) / r) ^ 2 * r ^ 2 = (l1 + l2) ^ 2 by
        field_simp]
    exact Real.sqrt_sq (by linarith)
  have hclamp :
      clampToWorkspace (x * ((l1 + l2) / r)) (y * ((l1 + l2) / r)) l1 l2 =
        clampToWorkspace x y l1 l2 := by
    simp only [clampToWorkspace, hscaled, gt_iff_lt, ← hrdef]
    rw [if_neg (lt_irrefl (l1 + l2)), if_pos h]
  simp only [LerobotYolo.inverse_kinematics, hclamp]

open LerobotYolo in
/-- Witness for C5 at the out-of-reach target `(0.3, 0.4)` (radius `0.5`)
with the default link lengths. -/
theorem clamping_ik_rescale_idempotent_witness :
    (0 : ℝ) < 0.1159 ∧ (0 : ℝ) < 0.1350 ∧
    (0.1159 : ℝ) + 0.1350 < Real.sqrt ((0.3 : ℝ) ^ 2 + (0.4 : ℝ) ^ 2) ∧
    LerobotYolo.inverse_kinematics
        (0.3 * ((0.1159 + 0.1350) / Real.sqrt ((0.3 : ℝ) ^ 2 + (0.4 : ℝ) ^ 2)))
        (0.4 * ((0.1159 + 0.1350) / Real.sqrt ((0.3 : ℝ) ^ 2 + (0.4 : ℝ) ^ 2)))
        0.1159 0.1350 =
      LerobotYolo.inverse_kinematics 0.3 0.4 0.1159 0.1350 := by
  have h5 : Real.sqrt ((0.3 : ℝ) ^ 2 + (0.4 : ℝ) ^ 2) = 0.5 := by
    rw [show (0.3 : ℝ) ^ 2 + (0.4 : ℝ) ^ 2 = (0.5 : ℝ) ^ 2 by norm_num]
    exact Real.sqrt_sq (by norm_num)
  refine ⟨by norm_num, by norm_num, by rw [h5]; norm_num, ?_⟩
  exact clamping_ik_rescale_idempotent 0.3 0.4 0.1159 0.1350 (by norm_num)
    (by norm_num) (by rw [h5]; norm_num)

open TrajectoryPlanner in
/-- C7 (code bug): `detect_bottles` keeps no detection whatsoever, for any
pixel-to-world conversion and any detector output, because it validates the
projected center at table height `z = 0.0` against the workspace box whose
`z_min` is `0.05`.  In particular a clear bottle detection (class
`"bottle"`, confidence `0.9`, centered on the image so that the fallback
projection lands at `(0.15, 0)`, inside the x/y limits) is dropped. -/
theorem detect_bottles_never_keeps :
    (∀ (p2w : ℤ → ℤ → ℝ × ℝ) (ds : List Detection),
      detect_bottles p2w ds = []) ∧
    detect_bottles pixel_to_world [⟨"bottle", 0.9, 310, 230, 330, 250⟩] =
      [] := by
  have hmain : ∀ (p2w : ℤ → ℤ → ℝ × ℝ) (ds : List Detection),
      detect_bottles p2w ds = [] := by
    intro p2w ds
    induction ds with
    | nil => rw [detect_bottles]
    | cons d ds ih =>
      simp only [detect_bottles]
      split_ifs with h1 h2
      · exact absurd h2.2.2.2.2.1 (by norm_num [workspace])
      · exact ih
      · exact ih
  exact ⟨hmain, hmain _ _⟩

open CoordinateTransformer in
/-- C8: `calibrate_workspace` rejects fewer than 4 reference points with a
`false` result, leaving the state untouched and persisting nothing; with at
least 4 points for which the homography fit succeeds it stores the
homography, persists the record, and reports `true`. -/
theorem calibrate_workspace_spec
    (fit : List RefPoint → Option (Matrix (Fin 3) (Fin 3) ℝ))
    (st : TransformerState) (pts : List RefPoint) :
    (pts.length < 4 → calibrate_workspace fit st pts = (false, st, none)) ∧
    (∀ h, 4 ≤ pts.length → fit pts = some h →
      calibrate_workspace fit st pts =
        (true, ⟨some h⟩, some ⟨h, pts⟩)) := by
  constructor
  · intro hlt
    rw [calibrate_workspace, if_pos hlt]
  · intro h hge hfit
    rw [calibrate_workspace, if_neg (by omega), hfit]

open CoordinateTransformer in
/-- Witness for C8: with a fit oracle that returns the identity homography,
3 points are rejected without a record and 4 points succeed with the
record persisted. -/
theorem calibrate_workspace_spec_witness :
    calibrate_workspace (fun _ => some 1) ⟨none⟩ refPts3 =
      (false, ⟨none⟩, none) ∧
    calibrate_workspace (fun _ => some 1) ⟨none⟩ refPts4 =
      (true, ⟨some 1⟩, some ⟨1, refPts4⟩) :=
  ⟨(calibrate_workspace_spec _ _ _).1 (by norm_num [refPts3]),
   (calibrate_workspace_spec _ _ _).2 1 (by norm_num [refPts4]) rfl⟩

end EchoRobot
